import Mathlib

/-!
Verification of the procfs/sysfs CPU and zoneinfo parsers.

The Go code is shallowly embedded: the filesystem is an oracle structure
(`FS`) mapping paths to directory listings and file contents, Go's
`(value, error)` returns become pairs with an `Option String` error slot,
and a possible runtime panic (index out of range) is the `GoRun.panic`
outcome.
-/

namespace Procfs

/-- Outcome of running a Go function: a normal result, or a runtime panic
(index out of range). -/
inductive GoRun (α : Type) where
  | ok : α → GoRun α
  | panic : GoRun α
deriving DecidableEq, Repr

/-- A directory entry as returned by ioutil.ReadDir: entry name plus whether
the entry is a directory. -/
structure DirEntry where
  name : String
  isDir : Bool
deriving DecidableEq, Repr

/-- Modelled from the spec: the filesystem-mount abstraction (the repository's
FS type and its Path join, which are not under src/) together with the
ioutil.ReadDir / ioutil.ReadFile primitives, as one oracle for a fixed,
unchanged filesystem root. An Except.error carries the error's text. -/
structure FS where
  mountPoint : String
  readDir : String → Except String (List DirEntry)
  readFile : String → Except String String

/-- Modelled from the spec: resolve(relativePath) -> absolutePath, joining the
mount point with the relative path. -/
def FS.Path (fs : FS) (p : String) : String := fs.mountPoint ++ "/" ++ p

/-- strings.Split(s, sep) for a one-character separator, processed
structurally over the character list with the current component accumulated
in reverse. Like Go's Split, the result is never empty. -/
def goSplitAux (sep : Char) : List Char → List Char → List String
  | [], cur => [String.mk cur.reverse]
  | c :: cs, cur =>
    if c = sep then String.mk cur.reverse :: goSplitAux sep cs []
    else goSplitAux sep cs (c :: cur)

/-- strings.Split(s, sep) for a one-character separator. -/
def goSplit (s : String) (sep : Char) : List String :=
  goSplitAux sep s.data []

/-- strings.TrimSpace: drop leading and trailing whitespace. -/
def goTrim (s : String) : String :=
  String.mk (((s.data.dropWhile (fun c => c.isWhitespace)).reverse.dropWhile
    (fun c => c.isWhitespace)).reverse)

/-- strings.HasPrefix. -/
def goHasPrefix (s pre : String) : Bool :=
  pre.data.isPrefixOf s.data

/-- Semantics of strconv.ParseInt(value, 10, 64) as the Go code uses it:
returns the value together with an optional error text. On a syntax error the
value is 0; on overflow it saturates at the int64 bounds. -/
def goParseInt64 (s : String) : Int × Option String :=
  match s.data with
  | [] => (0, some ("strconv.ParseInt: parsing " ++ s ++ ": invalid syntax"))
  | c :: cs =>
    let neg : Bool := c = '-'
    let ds : List Char := if c = '-' ∨ c = '+' then cs else c :: cs
    if ds = [] ∨ ¬ ds.all (fun d => d.isDigit) then
      (0, some ("strconv.ParseInt: parsing " ++ s ++ ": invalid syntax"))
    else
      let n : Nat := ds.foldl (fun a d => a * 10 + (d.toNat - 48)) 0
      if neg then
        if n ≤ 2 ^ 63 then (-(n : Int), none)
        else (-(2 ^ 63 : Int), some ("strconv.ParseInt: parsing " ++ s ++ ": value out of range"))
      else
        if n ≤ 2 ^ 63 - 1 then ((n : Int), none)
        else ((2 ^ 63 - 1 : Int), some ("strconv.ParseInt: parsing " ++ s ++ ": value out of range"))

/-- The ascending run first, first+1, ..., last produced by the Go loop
for i := first; i <= last; i++ (empty when last < first). -/
def rangeList (first last : Int) : List Int :=
  (List.range (last + 1 - first).toNat).map (fun i => first + Int.ofNat i)

/-- Loop body of parseCPURange over the comma-separated components, with the
accumulated slice. A component without a hyphen panics: the Go code indexes
strings.Split(component, "-")[1] unconditionally. -/
def parseCPURangeGo : List String → List Int → GoRun (List Int)
  | [], acc => GoRun.ok acc
  | c :: rest, acc =>
    match goSplit c '-' with
    | a :: b :: _ =>
        parseCPURangeGo rest (acc ++ rangeList (goParseInt64 a).1 (goParseInt64 b).1)
    | _ => GoRun.panic

/-- parseCPURange from cpu_system_devices.go: split on commas, parse each
component's two hyphen-separated bounds (errors are only logged, the parsed
values - 0 on failure - are used), and append the inclusive run. -/
def parseCPURange (value : String) : GoRun (List Int) :=
  parseCPURangeGo (goSplit value ',') []

/-- Loop of strings.Fields: split around runs of whitespace, accumulating the
current field in reverse; no empty fields are produced. -/
def goFieldsAux : List Char → List Char → List String
  | [], cur => if cur.isEmpty then [] else [String.mk cur.reverse]
  | c :: cs, cur =>
    if c.isWhitespace then
      if cur.isEmpty then goFieldsAux cs []
      else String.mk cur.reverse :: goFieldsAux cs []
    else goFieldsAux cs (c :: cur)

/-- strings.Fields: the whitespace-separated fields of a line. -/
def goFields (s : String) : List String :=
  goFieldsAux s.data []

/-- strings.TrimRight(s, ","): drop all trailing commas. -/
def trimRightComma (s : String) : String :=
  String.mk ((s.data.reverse.dropWhile (fun c => c = ',')).reverse)

/-- A ZoneInfo record from part_000: node identifier and zone name. -/
structure ZoneInfo where
  Node : String
  Zone : String
deriving DecidableEq, Repr

/-- Scanner loop of parseZoneInfo with the accumulated records. A line that
starts with Node is split into fields; parts[1] and parts[3] are indexed
unconditionally, so fewer than 4 fields is a runtime panic. -/
def parseZoneInfoGo : List String → List ZoneInfo → GoRun (List ZoneInfo × Option String)
  | [], acc => GoRun.ok (acc, none)
  | line :: rest, acc =>
    if goHasPrefix line "Node" then
      match goFields line with
      | _ :: p1 :: _ :: p3 :: _ =>
          parseZoneInfoGo rest (acc ++ [ZoneInfo.mk (trimRightComma p1) (trimRightComma p3)])
      | _ => GoRun.panic
    else parseZoneInfoGo rest acc

/-- parseZoneInfo from part_000, over the lines delivered by the scanner of a
reader that itself reads without error (scanner.Err() = nil). -/
def parseZoneInfo (lines : List String) : GoRun (List ZoneInfo × Option String) :=
  parseZoneInfoGo lines []

/-- CPUFreq record from cpu_system_devices.go, zero-valued by default. -/
structure CPUFreq where
  CPUInfoCurFreq : Int := 0
  CPUInfoMaxFreq : Int := 0
  CPUInfoMinFreq : Int := 0
  CPUInfoTransitionLatency : Int := 0
  ScalingAvailableGovernors : String := ""
  ScalingCurFreq : Int := 0
  ScalingDriver : String := ""
  ScalingGovernor : String := ""
  ScalingMaxFreq : Int := 0
  ScalingMinFreq : Int := 0
  ScalingSetspeed : Int := 0
deriving DecidableEq, Repr, Inhabited

/-- CPUTopology record from cpu_system_devices.go, zero-valued by default. -/
structure CPUTopology where
  CoreID : Int := 0
  CoreSiblings : String := ""
  CoreSiblingsList : String := ""
  PhysicalPackageID : Int := 0
  ThreadSiblings : String := ""
  ThreadSiblingsList : String := ""
deriving DecidableEq, Repr, Inhabited

/-- CPUThermalThrottle record from cpu_system_devices.go, zero-valued by
default. -/
structure CPUThermalThrottle where
  CoreThrottleCount : Int := 0
  PackageThrottleCount : Int := 0
deriving DecidableEq, Repr, Inhabited

/-- CPUInfoGeneric record from cpu_system_devices.go, zero-valued by
default. -/
structure CPUInfoGeneric where
  KernelMax : Int := 0
  Offline : List Int := []
  Online : List Int := []
  Possible : List Int := []
  Present : List Int := []
deriving DecidableEq, Repr, Inhabited

/-- CPUInfo record from cpu_system_devices.go. -/
structure CPUInfo where
  CPUInfoGeneric : CPUInfoGeneric := {}
  CPUFreqSlice : List CPUFreq := []
  CPUTopologySlice : List CPUTopology := []
  CPUThermalThrottleSlice : List CPUThermalThrottle := []
deriving DecidableEq, Repr, Inhabited

/-- Inner loop shared by the three per-CPU fan-out parsers: process the files
of one cpu<N> subsystem directory against the output slice. upd gives, per
file name and trimmed content, the field update of the switch statement (none
when no case matches). A failing file read returns early with the wrapped
path error; a matched case writes through slice[cpuNum], which panics when
cpuNum is outside the slice bounds. -/
def fanFiles (upd : String → String → Option (α → α)) (fs : FS) (path : String)
    (cpuNum : Int) : List DirEntry → List α → GoRun (List α × Option String)
  | [], slice => GoRun.ok (slice, none)
  | f :: rest, slice =>
    match fs.readFile (path ++ "/" ++ f.name) with
    | Except.error e =>
        GoRun.ok (slice, some ("cannot access " ++ path ++ "/" ++ f.name ++ ", " ++ e))
    | Except.ok contents =>
      match upd f.name (goTrim contents) with
      | none => fanFiles upd fs path cpuNum rest slice
      | some g =>
        if h : 0 ≤ cpuNum ∧ cpuNum.toNat < slice.length then
          fanFiles upd fs path cpuNum rest
            (slice.set cpuNum.toNat (g (slice.get ⟨cpuNum.toNat, h.2⟩)))
        else GoRun.panic

/-- Outer loop shared by the three per-CPU fan-out parsers: for each online
cpu number, list its subsystem directory (a listing failure skips the CPU),
then run the file loop; a file-loop error is returned as the function's
result, and the final return carries a nil error (the Go functions return the
outer err variable, which the loop bodies only shadow). -/
def fanCPUs (upd : String → String → Option (α → α)) (pathOf : FS → Int → String)
    (fs : FS) : List Int → List α → GoRun (List α × Option String)
  | [], slice => GoRun.ok (slice, none)
  | cpuNum :: rest, slice =>
    match fs.readDir (pathOf fs cpuNum) with
    | Except.error _ => fanCPUs upd pathOf fs rest slice
    | Except.ok files =>
      match fanFiles upd fs (pathOf fs cpuNum) cpuNum files slice with
      | GoRun.panic => GoRun.panic
      | GoRun.ok (slice', some e) => GoRun.ok (slice', some e)
      | GoRun.ok (slice', none) => fanCPUs upd pathOf fs rest slice'

/-- Path of cpu<N>/thermal_throttle as built in parseCPUThermalThrottle. -/
def ttPath (fs : FS) (n : Int) : String :=
  fs.Path ("devices/system/cpu/cpu" ++ toString n ++ "/thermal_throttle")

/-- Path of cpu<N>/cpufreq as built in parseCPUFreq. -/
def freqPath (fs : FS) (n : Int) : String :=
  fs.Path ("devices/system/cpu/cpu" ++ toString n ++ "/cpufreq")

/-- Path of cpu<N>/topology as built in parseCPUTopology. -/
def topoPath (fs : FS) (n : Int) : String :=
  fs.Path ("devices/system/cpu/cpu" ++ toString n ++ "/topology")

/-- The switch statement of parseCPUThermalThrottle: which field each file
name sets, integer fields going through strconv.ParseInt whose error is only
logged (the value, 0 on failure, is kept). -/
def ttUpd (label value : String) : Option (CPUThermalThrottle → CPUThermalThrottle) :=
  match label with
  | "core_throttle_count" =>
      some (fun r => { r with CoreThrottleCount := (goParseInt64 value).1 })
  | "package_throttle_count" =>
      some (fun r => { r with PackageThrottleCount := (goParseInt64 value).1 })
  | _ => none

/-- The switch statement of parseCPUFreq. -/
def freqUpd (label value : String) : Option (CPUFreq → CPUFreq) :=
  match label with
  | "cpuinfo_cur_freq" =>
      some (fun r => { r with CPUInfoCurFreq := (goParseInt64 value).1 })
  | "cpuinfo_max_freq" =>
      some (fun r => { r with CPUInfoMaxFreq := (goParseInt64 value).1 })
  | "cpuinfo_min_freq" =>
      some (fun r => { r with CPUInfoMinFreq := (goParseInt64 value).1 })
  | "cpuinfo_transition_latency" =>
      some (fun r => { r with CPUInfoTransitionLatency := (goParseInt64 value).1 })
  | "scaling_available_governors" =>
      some (fun r => { r with ScalingAvailableGovernors := value })
  | "scaling_cur_freq" =>
      some (fun r => { r with ScalingCurFreq := (goParseInt64 value).1 })
  | "scaling_driver" => some (fun r => { r with ScalingDriver := value })
  | "scaling_governor" => some (fun r => { r with ScalingGovernor := value })
  | "scaling_max_freq" =>
      some (fun r => { r with ScalingMaxFreq := (goParseInt64 value).1 })
  | "scaling_min_freq" =>
      some (fun r => { r with ScalingMinFreq := (goParseInt64 value).1 })
  | "scaling_setspeed" =>
      some (fun r => { r with ScalingSetspeed := (goParseInt64 value).1 })
  | _ => none

/-- The switch statement of parseCPUTopology. -/
def topoUpd (label value : String) : Option (CPUTopology → CPUTopology) :=
  match label with
  | "core_id" => some (fun r => { r with CoreID := (goParseInt64 value).1 })
  | "core_siblings" => some (fun r => { r with CoreSiblings := value })
  | "core_siblings_list" => some (fun r => { r with CoreSiblingsList := value })
  | "physical_package_id" =>
      some (fun r => { r with PhysicalPackageID := (goParseInt64 value).1 })
  | "thread_siblings" => some (fun r => { r with ThreadSiblings := value })
  | "thread_siblings_list" =>
      some (fun r => { r with ThreadSiblingsList := value })
  | _ => none

/-- parseCPUThermalThrottle from cpu_system_devices.go: the output slice is
created with length len(online) and filled by the fan-out loop. -/
def parseCPUThermalThrottle (fs : FS) (online : List Int) :
    GoRun (List CPUThermalThrottle × Option String) :=
  fanCPUs ttUpd ttPath fs online (List.replicate online.length {})

/-- parseCPUFreq from cpu_system_devices.go. -/
def parseCPUFreq (fs : FS) (online : List Int) :
    GoRun (List CPUFreq × Option String) :=
  fanCPUs freqUpd freqPath fs online (List.replicate online.length {})

/-- parseCPUTopology from cpu_system_devices.go. -/
def parseCPUTopology (fs : FS) (online : List Int) :
    GoRun (List CPUTopology × Option String) :=
  fanCPUs topoUpd topoPath fs online (List.replicate online.length {})

/-- Loop of parseCPUInfoGeneric over the entries of devices/system/cpu:
directories are skipped, a failing file read returns early with the wrapped
path error, and recognized file names populate the record. The err produced
by strconv.ParseInt for kernel_max is assigned to a loop-shadowed variable
and only logged; the range files go through parseCPURange (which can panic).
The final return carries a nil error: the err returned by the Go function is
the one declared by the ReadDir call, which the loop body only shadows. -/
def cpuRootFiles (fs : FS) (path : String) :
    List DirEntry → CPUInfoGeneric → GoRun (CPUInfoGeneric × Option String)
  | [], g => GoRun.ok (g, none)
  | f :: rest, g =>
    if f.isDir then cpuRootFiles fs path rest g
    else
      match fs.readFile (path ++ "/" ++ f.name) with
      | Except.error e =>
          GoRun.ok (g, some ("cannot access " ++ path ++ "/" ++ f.name ++ ", " ++ e))
      | Except.ok contents =>
        let value := goTrim contents
        match f.name with
        | "kernel_max" =>
            cpuRootFiles fs path rest { g with KernelMax := (goParseInt64 value).1 }
        | "offline" =>
          match parseCPURange value with
          | GoRun.panic => GoRun.panic
          | GoRun.ok l => cpuRootFiles fs path rest { g with Offline := l }
        | "online" =>
          match parseCPURange value with
          | GoRun.panic => GoRun.panic
          | GoRun.ok l => cpuRootFiles fs path rest { g with Online := l }
        | "possible" =>
          match parseCPURange value with
          | GoRun.panic => GoRun.panic
          | GoRun.ok l => cpuRootFiles fs path rest { g with Possible := l }
        | "present" =>
          match parseCPURange value with
          | GoRun.panic => GoRun.panic
          | GoRun.ok l => cpuRootFiles fs path rest { g with Present := l }
        | _ => cpuRootFiles fs path rest g

/-- parseCPUInfoGeneric from cpu_system_devices.go: list devices/system/cpu
(a listing failure is returned as a wrapped path error) and fold the entries
through cpuRootFiles. -/
def parseCPUInfoGeneric (fs : FS) : GoRun (CPUInfoGeneric × Option String) :=
  match fs.readDir (fs.Path "devices/system/cpu") with
  | Except.error e =>
      GoRun.ok ({}, some ("cannot access " ++ fs.Path "devices/system/cpu" ++ " dir " ++ e))
  | Except.ok files => cpuRootFiles fs (fs.Path "devices/system/cpu") files {}

/-- The FS.NewCPUInfo method from cpu_system_devices.go: run the generic
parser, then feed its Online list to the three fan-out parsers, returning at
the first error with the fields populated so far. -/
def FS.NewCPUInfo (fs : FS) : GoRun (CPUInfo × Option String) :=
  match parseCPUInfoGeneric fs with
  | GoRun.panic => GoRun.panic
  | GoRun.ok (g, some e) => GoRun.ok ({ CPUInfoGeneric := g }, some e)
  | GoRun.ok (g, none) =>
    match parseCPUFreq fs g.Online with
    | GoRun.panic => GoRun.panic
    | GoRun.ok (freq, some e) =>
        GoRun.ok ({ CPUInfoGeneric := g, CPUFreqSlice := freq }, some e)
    | GoRun.ok (freq, none) =>
      match parseCPUTopology fs g.Online with
      | GoRun.panic => GoRun.panic
      | GoRun.ok (topo, some e) =>
          GoRun.ok ({ CPUInfoGeneric := g, CPUFreqSlice := freq,
                      CPUTopologySlice := topo }, some e)
      | GoRun.ok (topo, none) =>
        match parseCPUThermalThrottle fs g.Online with
        | GoRun.panic => GoRun.panic
        | GoRun.ok (tt, e) =>
            GoRun.ok ({ CPUInfoGeneric := g, CPUFreqSlice := freq,
                        CPUTopologySlice := topo,
                        CPUThermalThrottleSlice := tt }, e)

/-! Spec-side descriptions, used only to state claims. -/

/-- Follows the spec's words: a well-formed hyphenated inclusive range
component N-M is exactly two hyphen-separated parts, each parsing as an int64
without error; returns the pair of bounds. -/
def checkComponent (c : String) : Option (Int × Int) :=
  match goSplit c '-' with
  | [a, b] =>
    match goParseInt64 a, goParseInt64 b with
    | (n, none), (m, none) => some (n, m)
    | _, _ => none
  | _ => none

/-- Check every comma component of a candidate range string. -/
def checkRangeGo : List String → Option (List (Int × Int))
  | [] => some []
  | c :: rest =>
    match checkComponent c, checkRangeGo rest with
    | some p, some ps => some (p :: ps)
    | _, _ => none

/-- Follows the spec's words: a string is a well-formed comma-separated list
of hyphenated inclusive ranges when every comma component checks; returns the
bound pairs in input order. -/
def checkRangeString (s : String) : Option (List (Int × Int)) :=
  checkRangeGo (goSplit s ',')

/-- The expansion the spec promises: the inclusive runs of the components,
concatenated in input order. -/
def expandRanges : List (Int × Int) → List Int
  | [] => []
  | p :: ps => rangeList p.1 p.2 ++ expandRanges ps

/-- The record the spec promises for a Node line: 2nd and 4th whitespace
fields with trailing commas stripped. -/
def zoneOf (line : String) : ZoneInfo :=
  { Node := trimRightComma ((goFields line).getD 1 "")
    Zone := trimRightComma ((goFields line).getD 3 "") }

/-! Concrete filesystem fixtures for the witnesses and counterexamples. -/

/-- A root whose cpu0 and cpu1 both expose thermal_throttle, with different
counter values, to exhibit which output slot each CPU's data lands in. -/
def fsSwap : FS where
  mountPoint := "sys"
  readDir := fun p =>
    if p = "sys/devices/system/cpu/cpu0/thermal_throttle" then
      Except.ok [DirEntry.mk "core_throttle_count" false]
    else if p = "sys/devices/system/cpu/cpu1/thermal_throttle" then
      Except.ok [DirEntry.mk "core_throttle_count" false]
    else Except.error "no such file or directory"
  readFile := fun p =>
    if p = "sys/devices/system/cpu/cpu0/thermal_throttle/core_throttle_count" then
      Except.ok "10"
    else if p = "sys/devices/system/cpu/cpu1/thermal_throttle/core_throttle_count" then
      Except.ok "20"
    else Except.error "no such file or directory"

/-- A root where only cpu89 exposes cpufreq and topology data, mirroring the
test fixture's online list whose 24th element is 89. -/
def fs89 : FS where
  mountPoint := "sys"
  readDir := fun p =>
    if p = "sys/devices/system/cpu/cpu89/cpufreq" then
      Except.ok [DirEntry.mk "scaling_driver" false]
    else if p = "sys/devices/system/cpu/cpu89/topology" then
      Except.ok [DirEntry.mk "core_id" false]
    else Except.error "no such file or directory"
  readFile := fun p =>
    if p = "sys/devices/system/cpu/cpu89/cpufreq/scaling_driver" then
      Except.ok "intel_pstate"
    else if p = "sys/devices/system/cpu/cpu89/topology/core_id" then
      Except.ok "1"
    else Except.error "no such file or directory"

/-- The 24-element online list 0..22,89 of the test fixture. -/
def online89 : List Int :=
  (List.range 23).map Int.ofNat ++ [89]

/-- A root where cpu0's cpufreq has one unparsable numeric field next to a
well-formed one. -/
def fsBadField : FS where
  mountPoint := "sys"
  readDir := fun p =>
    if p = "sys/devices/system/cpu/cpu0/cpufreq" then
      Except.ok [DirEntry.mk "cpuinfo_cur_freq" false, DirEntry.mk "scaling_min_freq" false]
    else Except.error "no such file or directory"
  readFile := fun p =>
    if p = "sys/devices/system/cpu/cpu0/cpufreq/cpuinfo_cur_freq" then
      Except.ok "abc"
    else if p = "sys/devices/system/cpu/cpu0/cpufreq/scaling_min_freq" then
      Except.ok "1000"
    else Except.error "no such file or directory"

/-- A root whose cpu device directory holds only a kernel_max file with
non-numeric content. -/
def fsKernelMaxBad : FS where
  mountPoint := "sys"
  readDir := fun p =>
    if p = "sys/devices/system/cpu" then Except.ok [DirEntry.mk "kernel_max" false]
    else Except.error "no such file or directory"
  readFile := fun p =>
    if p = "sys/devices/system/cpu/kernel_max" then Except.ok "zz"
    else Except.error "no such file or directory"

/-- A root on which every directory listing and file read fails. -/
def fsAbsent : FS where
  mountPoint := "sys"
  readDir := fun _ => Except.error "no such file or directory"
  readFile := fun _ => Except.error "no such file or directory"

/-- A root whose cpu0 thermal_throttle and cpufreq directories list one file
each, but reading the file itself fails. -/
def fsUnreadable : FS where
  mountPoint := "sys"
  readDir := fun p =>
    if p = "sys/devices/system/cpu/cpu0/thermal_throttle" then
      Except.ok [DirEntry.mk "core_throttle_count" false]
    else if p = "sys/devices/system/cpu/cpu0/cpufreq" then
      Except.ok [DirEntry.mk "scaling_cur_freq" false]
    else Except.error "no such file or directory"
  readFile := fun _ => Except.error "permission denied"

/-! Helper lemmas. -/

/-- Unfold a successful component check into its split and parse facts. -/
theorem checkComponent_eq {c : String} {p : Int × Int}
    (h : checkComponent c = some p) :
    ∃ a b, goSplit c '-' = [a, b] ∧
      goParseInt64 a = (p.1, none) ∧ goParseInt64 b = (p.2, none) := by
  unfold checkComponent at h
  split at h
  case _ a b heq =>
    refine ⟨a, b, heq, ?_⟩
    split at h
    case _ n m h1 h2 => cases h; exact ⟨h1, h2⟩
    case _ => cases h
  case _ => cases h

/-- On checked component lists, the parse loop appends the concatenated
inclusive runs to the accumulator. -/
theorem parseCPURangeGo_spec :
    ∀ (comps : List String) (ranges : List (Int × Int)) (acc : List Int),
      checkRangeGo comps = some ranges →
      parseCPURangeGo comps acc = GoRun.ok (acc ++ expandRanges ranges) := by
  intro comps
  induction comps with
  | nil =>
    intro ranges acc h
    cases h
    simp [parseCPURangeGo, expandRanges]
  | cons c rest ih =>
    intro ranges acc h
    unfold checkRangeGo at h
    cases hc : checkComponent c with
    | none => rw [hc] at h; cases h
    | some p =>
      rw [hc] at h
      cases hr : checkRangeGo rest with
      | none => simp only [hr] at h; cases h
      | some ps =>
        simp only [hr] at h
        cases h
        obtain ⟨a, b, hsplit, ha, hb⟩ := checkComponent_eq hc
        unfold parseCPURangeGo
        rw [hsplit]
        show parseCPURangeGo rest
          (acc ++ rangeList (goParseInt64 a).1 (goParseInt64 b).1) = _
        rw [ha, hb, ih ps _ hr]
        simp [expandRanges]

/-- On a checked range string, parseCPURange returns exactly the
concatenation, in input order, of the components' inclusive runs. -/
theorem parseCPURange_spec {s : String} {ranges : List (Int × Int)}
    (h : checkRangeString s = some ranges) :
    parseCPURange s = GoRun.ok (expandRanges ranges) := by
  have := parseCPURangeGo_spec (goSplit s ',') ranges [] h
  simpa [parseCPURange] using this

/-- Length of an inclusive run. -/
theorem rangeList_length (n m : Int) :
    (rangeList n m).length = (m + 1 - n).toNat := by
  rw [rangeList, List.length_map, List.length_range]

/-- Entry i of an inclusive run is n + i: the run ascends by one from its
lower bound. -/
theorem rangeList_get (n m : Int) (i : Nat) (h : i < (m + 1 - n).toNat) :
    (rangeList n m)[i]? = some (n + i) := by
  rw [rangeList, List.getElem?_map, List.getElem?_range h]
  rfl

/-- A reversed range expands to nothing. -/
theorem rangeList_reversed (n m : Int) (h : m < n) : rangeList n m = [] := by
  have : (m + 1 - n).toNat = 0 := by omega
  simp [rangeList, this]

/-- The expansion's length is the sum of the inclusive span sizes when every
range is properly ordered. -/
theorem expandRanges_length (ranges : List (Int × Int))
    (h : ∀ p ∈ ranges, p.1 ≤ p.2) :
    ((expandRanges ranges).length : Int) =
      (ranges.map (fun p => p.2 - p.1 + 1)).sum := by
  induction ranges with
  | nil => simp [expandRanges]
  | cons p ps ih =>
    have hp : p.1 ≤ p.2 := h p (List.mem_cons_self p ps)
    have hps : ∀ q ∈ ps, q.1 ≤ q.2 := fun q hq => h q (List.mem_cons_of_mem p hq)
    simp only [expandRanges, List.length_append, List.map_cons, List.sum_cons]
    rw [rangeList_length]
    push_cast
    rw [ih hps]
    omega

/-- When every Node line has at least 4 fields, the scanner loop appends one
record per Node line, in file order, and ends with a nil error. -/
theorem parseZoneInfoGo_spec :
    ∀ (lines : List String) (acc : List ZoneInfo),
      (∀ l ∈ lines, goHasPrefix l "Node" = true → 4 ≤ (goFields l).length) →
      parseZoneInfoGo lines acc =
        GoRun.ok (acc ++ (lines.filter (fun l => goHasPrefix l "Node")).map zoneOf,
          none) := by
  intro lines
  induction lines with
  | nil => intro acc h; simp [parseZoneInfoGo]
  | cons line rest ih =>
    intro acc h
    have hrest : ∀ l ∈ rest, goHasPrefix l "Node" = true → 4 ≤ (goFields l).length :=
      fun l hl => h l (List.mem_cons_of_mem _ hl)
    by_cases hp : goHasPrefix line "Node" = true
    · have hlen : 4 ≤ (goFields line).length := h line (List.mem_cons_self _ _) hp
      rcases hf : goFields line with _ | ⟨p0, _ | ⟨p1, _ | ⟨p2, _ | ⟨p3, tl⟩⟩⟩⟩ <;>
        simp only [hf] at hlen <;> simp only [List.length_nil, List.length_cons] at hlen <;>
        try omega
      unfold parseZoneInfoGo
      rw [if_pos hp, hf]
      show parseZoneInfoGo rest
        (acc ++ [ZoneInfo.mk (trimRightComma p1) (trimRightComma p3)]) = _
      rw [ih _ hrest]
      have hz : zoneOf line = ZoneInfo.mk (trimRightComma p1) (trimRightComma p3) := by
        simp [zoneOf, hf]
      simp [hp, hz]
    · have hp' : goHasPrefix line "Node" = false := by
        revert hp; cases goHasPrefix line "Node" <;> simp
      unfold parseZoneInfoGo
      rw [if_neg hp, ih _ hrest]
      simp [hp']

/-- The inner fan-out loop preserves the slice length. -/
theorem fanFiles_length {α : Type} {u : String → String → Option (α → α)}
    (fs : FS) (path : String) (cpuNum : Int) :
    ∀ (files : List DirEntry) (slice slice' : List α) (e : Option String),
      fanFiles u fs path cpuNum files slice = GoRun.ok (slice', e) →
      slice'.length = slice.length := by
  intro files
  induction files with
  | nil => intro slice slice' e h; cases h; rfl
  | cons f rest ih =>
    intro slice slice' e h
    unfold fanFiles at h
    cases hr : fs.readFile (path ++ "/" ++ f.name) with
    | error err => simp only [hr] at h; cases h; rfl
    | ok contents =>
      simp only [hr] at h
      cases hu : u f.name (goTrim contents) with
      | none => simp only [hu] at h; exact ih _ _ _ h
      | some g =>
        simp only [hu] at h
        split at h
        case isTrue hb =>
          have := ih _ _ _ h
          rwa [List.length_set] at this
        case isFalse => cases h

/-- The outer fan-out loop preserves the slice length. -/
theorem fanCPUs_length {α : Type} {u : String → String → Option (α → α)}
    {pathOf : FS → Int → String} (fs : FS) :
    ∀ (cpus : List Int) (slice slice' : List α) (e : Option String),
      fanCPUs u pathOf fs cpus slice = GoRun.ok (slice', e) →
      slice'.length = slice.length := by
  intro cpus
  induction cpus with
  | nil => intro slice slice' e h; cases h; rfl
  | cons c rest ih =>
    intro slice slice' e h
    unfold fanCPUs at h
    cases hd : fs.readDir (pathOf fs c) with
    | error err => simp only [hd] at h; exact ih _ _ _ h
    | ok files =>
      simp only [hd] at h
      cases hf : fanFiles u fs (pathOf fs c) c files slice with
      | panic => simp only [hf] at h; cases h
      | ok pr =>
        simp only [hf] at h
        obtain ⟨s1, e1⟩ := pr
        cases e1 with
        | none =>
          exact (ih _ _ _ h).trans (fanFiles_length fs _ c files slice s1 none hf)
        | some e2 =>
          cases h
          exact fanFiles_length fs _ c files slice slice' _ hf

/-- The inner fan-out loop only writes through index cpuNum: every other
entry of the slice is unchanged. -/
theorem fanFiles_getElem {α : Type} {u : String → String → Option (α → α)}
    (fs : FS) (path : String) (cpuNum : Int) :
    ∀ (files : List DirEntry) (slice slice' : List α) (e : Option String) (j : Nat),
      fanFiles u fs path cpuNum files slice = GoRun.ok (slice', e) →
      ¬(0 ≤ cpuNum ∧ cpuNum.toNat = j) →
      slice'[j]? = slice[j]? := by
  intro files
  induction files with
  | nil => intro slice slice' e j h hj; cases h; rfl
  | cons f rest ih =>
    intro slice slice' e j h hj
    unfold fanFiles at h
    cases hr : fs.readFile (path ++ "/" ++ f.name) with
    | error err => simp only [hr] at h; cases h; rfl
    | ok contents =>
      simp only [hr] at h
      cases hu : u f.name (goTrim contents) with
      | none => simp only [hu] at h; exact ih _ _ _ _ h hj
      | some g =>
        simp only [hu] at h
        split at h
        case isTrue hb =>
          have hne : cpuNum.toNat ≠ j := fun hc => hj ⟨hb.1, hc⟩
          rw [ih _ _ _ _ h hj]
          exact List.getElem?_set_ne hne
        case isFalse => cases h

/-- If cpu N's subsystem directory cannot be listed, the outer fan-out loop
leaves entry N of the slice unchanged, whatever the other CPUs do. -/
theorem fanCPUs_getElem {α : Type} {u : String → String → Option (α → α)}
    {pathOf : FS → Int → String} (fs : FS) (N : Int) (e0 : String)
    (hN : 0 ≤ N) (hdir : fs.readDir (pathOf fs N) = Except.error e0) :
    ∀ (cpus : List Int) (slice slice' : List α) (err : Option String),
      fanCPUs u pathOf fs cpus slice = GoRun.ok (slice', err) →
      slice'[N.toNat]? = slice[N.toNat]? := by
  intro cpus
  induction cpus with
  | nil => intro slice slice' err h; cases h; rfl
  | cons c rest ih =>
    intro slice slice' err h
    unfold fanCPUs at h
    cases hd : fs.readDir (pathOf fs c) with
    | error e1 => simp only [hd] at h; exact ih _ _ _ h
    | ok files =>
      simp only [hd] at h
      have hcN : ¬(0 ≤ c ∧ c.toNat = N.toNat) := by
        rintro ⟨hc0, hceq⟩
        have : c = N := by omega
        rw [this, hdir] at hd
        cases hd
      cases hf : fanFiles u fs (pathOf fs c) c files slice with
      | panic => simp only [hf] at h; cases h
      | ok pr =>
        simp only [hf] at h
        obtain ⟨s1, e1⟩ := pr
        cases e1 with
        | none =>
          exact (ih _ _ _ h).trans (fanFiles_getElem fs _ c files slice s1 none _ hf hcN)
        | some e2 =>
          cases h
          exact fanFiles_getElem fs _ c files slice slice' _ _ hf hcN

/-- One step of the outer fan-out loop, stated as an equation. -/
theorem fanCPUs_cons {α : Type} (u : String → String → Option (α → α))
    (pathOf : FS → Int → String) (fs : FS) (c : Int) (rest : List Int)
    (slice : List α) :
    fanCPUs u pathOf fs (c :: rest) slice =
      match fs.readDir (pathOf fs c) with
      | Except.error _ => fanCPUs u pathOf fs rest slice
      | Except.ok files =>
        match fanFiles u fs (pathOf fs c) c files slice with
        | GoRun.panic => GoRun.panic
        | GoRun.ok (slice', some e) => GoRun.ok (slice', some e)
        | GoRun.ok (slice', none) => fanCPUs u pathOf fs rest slice' := rfl

/-- CPUs whose subsystem directory cannot be listed are skipped without
touching the slice or producing an error. -/
theorem fanCPUs_skip {α : Type} {u : String → String → Option (α → α)}
    {pathOf : FS → Int → String} (fs : FS) :
    ∀ (pre rest : List Int) (slice : List α),
      (∀ M ∈ pre, ∃ e, fs.readDir (pathOf fs M) = Except.error e) →
      fanCPUs u pathOf fs (pre ++ rest) slice = fanCPUs u pathOf fs rest slice := by
  intro pre
  induction pre with
  | nil => intro rest slice h; rfl
  | cons c pre' ih =>
    intro rest slice h
    obtain ⟨e, he⟩ := h c (List.mem_cons_self _ _)
    show fanCPUs u pathOf fs (c :: (pre' ++ rest)) slice = _
    rw [fanCPUs_cons, he]
    exact ih rest slice (fun M hM => h M (List.mem_cons_of_mem _ hM))

/-- When every file of the directory reads successfully and cpuNum is within
the slice bounds, the inner loop finishes normally with a nil error. -/
theorem fanFiles_total {α : Type} {u : String → String → Option (α → α)}
    (fs : FS) (path : String) (cpuNum : Int) (h0 : 0 ≤ cpuNum) :
    ∀ (files : List DirEntry) (slice : List α),
      cpuNum.toNat < slice.length →
      (∀ f ∈ files, ∃ s, fs.readFile (path ++ "/" ++ f.name) = Except.ok s) →
      ∃ slice', fanFiles u fs path cpuNum files slice = GoRun.ok (slice', none) ∧
        slice'.length = slice.length := by
  intro files
  induction files with
  | nil => intro slice hb hr; exact ⟨slice, rfl, rfl⟩
  | cons f rest ih =>
    intro slice hb hr
    obtain ⟨s, hs⟩ := hr f (List.mem_cons_self _ _)
    have hrest := fun f' hf' => hr f' (List.mem_cons_of_mem _ hf')
    unfold fanFiles
    simp only [hs]
    cases hu : u f.name (goTrim s) with
    | none => simp only [hu]; exact ih slice hb hrest
    | some g =>
      simp only [hu]
      rw [dif_pos ⟨h0, hb⟩]
      obtain ⟨slice', h1, h2⟩ := ih (slice.set cpuNum.toNat (g (slice.get ⟨cpuNum.toNat, hb⟩)))
        (by rwa [List.length_set]) hrest
      exact ⟨slice', h1, by rwa [List.length_set] at h2⟩

/-- When every listable directory's files all read successfully and every
online CPU number is within the slice bounds, the whole fan-out finishes
normally with a nil error and an unchanged slice length. -/
theorem fanCPUs_total {α : Type} {u : String → String → Option (α → α)}
    {pathOf : FS → Int → String} (fs : FS) :
    ∀ (cpus : List Int) (slice : List α),
      (∀ N ∈ cpus, 0 ≤ N ∧ N.toNat < slice.length) →
      (∀ N ∈ cpus, ∀ files, fs.readDir (pathOf fs N) = Except.ok files →
        ∀ f ∈ files, ∃ s, fs.readFile (pathOf fs N ++ "/" ++ f.name) = Except.ok s) →
      ∃ slice', fanCPUs u pathOf fs cpus slice = GoRun.ok (slice', none) ∧
        slice'.length = slice.length := by
  intro cpus
  induction cpus with
  | nil => intro slice hb hr; exact ⟨slice, rfl, rfl⟩
  | cons c rest ih =>
    intro slice hb hr
    have hbrest := fun N hN => hb N (List.mem_cons_of_mem _ hN)
    have hrrest := fun N hN => hr N (List.mem_cons_of_mem _ hN)
    obtain ⟨hc0, hcb⟩ := hb c (List.mem_cons_self _ _)
    unfold fanCPUs
    cases hd : fs.readDir (pathOf fs c) with
    | error e => simp only [hd]; exact ih slice hbrest hrrest
    | ok files =>
      obtain ⟨s1, h1, h2⟩ := @fanFiles_total α u fs (pathOf fs c) c hc0 files slice hcb
        (hr c (List.mem_cons_self _ _) files hd)
      simp only [hd, h1]
      obtain ⟨slice', h3, h4⟩ := ih s1 (fun N hN => by
          obtain ⟨hn0, hnb⟩ := hbrest N hN; exact ⟨hn0, by rwa [h2]⟩) hrrest
      exact ⟨slice', h3, h4.trans h2⟩

end Procfs


namespace Procfs

/-! Additional fixtures for witnesses. -/

/-- A root where cpu5 exposes a thermal_throttle counter file, and nothing
else exists. -/
def fsOob : FS where
  mountPoint := "sys"
  readDir := fun p =>
    if p = "sys/devices/system/cpu/cpu5/thermal_throttle" then
      Except.ok [DirEntry.mk "core_throttle_count" false]
    else Except.error "no such file or directory"
  readFile := fun p =>
    if p = "sys/devices/system/cpu/cpu5/thermal_throttle/core_throttle_count" then
      Except.ok "7"
    else Except.error "no such file or directory"

/-- A second, separately constructed root observing the same filesystem
contents as fsAbsent. -/
def fsAbsentTwin : FS where
  mountPoint := "sys"
  readDir := fun _ => Except.error "no such file or directory"
  readFile := fun _ => Except.error "no such file or directory"

/-- Entry i of a replicated list, for i within bounds. -/
theorem replicate_getElem {α : Type} (a : α) :
    ∀ (n i : Nat), i < n → (List.replicate n a)[i]? = some a := by
  intro n
  induction n with
  | zero => intro i h; omega
  | succ k ih =>
    intro i h
    cases i with
    | zero => rw [List.replicate_succ, List.getElem?_cons_zero]
    | succ j =>
      rw [List.replicate_succ]
      rw [List.getElem?_cons_succ]
      exact ih j (by omega)

end Procfs

namespace Procfs

/-! The claims. -/

/-- C2: for every input string that is a comma-separated list of well-formed
hyphenated inclusive ranges N-M with N <= M, parseCPURange returns the
integers in input order of components with natural ascending order within
each range (entry i of the run for N-M is N+i), and the output length equals
the sum of the inclusive span sizes M-N+1 over all components; in particular
"0-2" yields [0,1,2] and "0-1,8-9" yields [0,1,8,9]. -/
theorem claim_C2 :
    (∀ (s : String) (ranges : List (Int × Int)),
      checkRangeString s = some ranges →
      (∀ p ∈ ranges, p.1 ≤ p.2) →
      parseCPURange s = GoRun.ok (expandRanges ranges) ∧
        ((expandRanges ranges).length : Int) =
          (ranges.map (fun p => p.2 - p.1 + 1)).sum) ∧
    (∀ (n m : Int) (i : Nat), i < (m + 1 - n).toNat →
      (rangeList n m)[i]? = some (n + i)) ∧
    parseCPURange "0-2" = GoRun.ok [0, 1, 2] ∧
    parseCPURange "0-1,8-9" = GoRun.ok [0, 1, 8, 9] := by
  refine ⟨?_, rangeList_get, by decide, by decide⟩
  intro s ranges hc hord
  exact ⟨parseCPURange_spec hc, expandRanges_length ranges hord⟩

/-- Witness for C2 at the concrete range string "2-4,9-9". -/
theorem claim_C2_witness :
    (parseCPURange "2-4,9-9" = GoRun.ok (expandRanges [(2, 4), (9, 9)]) ∧
      ((expandRanges [(2, 4), (9, 9)]).length : Int) =
        ([((2 : Int), (4 : Int)), (9, 9)].map (fun p => p.2 - p.1 + 1)).sum) ∧
    (rangeList 2 4)[1]? = some (3 : Int) :=
  ⟨claim_C2.1 "2-4,9-9" [(2, 4), (9, 9)] (by decide) (by decide),
   claim_C2.2.1 2 4 1 (by decide)⟩

/-- C10: a comma component N-M whose bounds both parse but with M < N (a
reversed range) contributes no elements to the output, while the remaining
components are still expanded normally; in particular "5-3,1-2" yields
[1,2]. -/
theorem claim_C10 :
    (∀ (s : String) (ranges : List (Int × Int)),
      checkRangeString s = some ranges →
      parseCPURange s = GoRun.ok (expandRanges ranges)) ∧
    (∀ n m : Int, m < n → rangeList n m = []) ∧
    parseCPURange "5-3,1-2" = GoRun.ok [1, 2] :=
  ⟨fun _ _ hc => parseCPURange_spec hc, rangeList_reversed, by decide⟩

/-- Witness for C10 at the concrete range string "7-4,2-3". -/
theorem claim_C10_witness :
    parseCPURange "7-4,2-3" = GoRun.ok (expandRanges [(7, 4), (2, 3)]) ∧
      rangeList 7 4 = [] :=
  ⟨claim_C10.1 "7-4,2-3" [(7, 4), (2, 3)] (by decide),
   claim_C10.2.1 7 4 (by decide)⟩

/-- C5: on any input whose Node lines all carry at least 4 fields,
parseZoneInfo yields, in file order, one record per line beginning with
"Node", taking the 2nd whitespace field with trailing commas stripped as the
node and the 4th with trailing commas stripped as the zone, and lines not
beginning with "Node" contribute no records; in particular
"Node 0, zone      DMA ..." yields the record with node "0" and zone
"DMA". -/
theorem claim_C5 :
    (∀ lines : List String,
      (∀ l ∈ lines, goHasPrefix l "Node" = true → 4 ≤ (goFields l).length) →
      parseZoneInfo lines =
        GoRun.ok ((lines.filter (fun l => goHasPrefix l "Node")).map zoneOf,
          none)) ∧
    parseZoneInfo ["Node 0, zone      DMA", "  pages free     3952"] =
      GoRun.ok ([ZoneInfo.mk "0" "DMA"], none) := by
  refine ⟨?_, by decide⟩
  intro lines h
  have := parseZoneInfoGo_spec lines [] h
  simpa [parseZoneInfo] using this

/-- Witness for C5 at a concrete two-line input. -/
theorem claim_C5_witness :
    parseZoneInfo ["Node 1, zone   Normal", "pages free 1"] =
      GoRun.ok ((["Node 1, zone   Normal", "pages free 1"].filter
        (fun l => goHasPrefix l "Node")).map zoneOf, none) :=
  claim_C5.1 ["Node 1, zone   Normal", "pages free 1"] (by decide)

/-- C3 counterexample: on the line "Node 0, zone", which begins with "Node"
but has only 3 whitespace-separated fields, parseZoneInfo crashes with an
index-out-of-range panic; it does not return a malformed-input error
value. -/
theorem claim_C3_counterexample :
    parseZoneInfo ["Node 0, zone"] = GoRun.panic := by decide

/-- C3 amended: for every input line that begins with "Node" but contains
fewer than 4 whitespace-separated fields, parseZoneInfo crashes with an
index-out-of-range panic (the unguarded parts[3], or parts[1], access)
rather than returning a malformed-input error value. -/
theorem claim_C3_amended :
    ∀ line : String, goHasPrefix line "Node" = true →
      (goFields line).length < 4 → parseZoneInfo [line] = GoRun.panic := by
  intro line hp hlen
  unfold parseZoneInfo parseZoneInfoGo
  rw [if_pos hp]
  rcases hf : goFields line with _ | ⟨p0, _ | ⟨p1, _ | ⟨p2, _ | ⟨p3, tl⟩⟩⟩⟩
  case nil => rfl
  case cons.nil => rfl
  case cons.cons.nil => rfl
  case cons.cons.cons.nil => rfl
  case cons.cons.cons.cons =>
    rw [hf] at hlen
    simp only [List.length_cons] at hlen
    omega

/-- Witness for C3's amended claim at the concrete line "Node 2,". -/
theorem claim_C3_witness :
    goHasPrefix "Node 2," "Node" = true ∧ (goFields "Node 2,").length < 4 ∧
      parseZoneInfo ["Node 2,"] = GoRun.panic :=
  ⟨by decide, by decide, claim_C3_amended "Node 2," (by decide) (by decide)⟩

end Procfs

namespace Procfs

/-- The thermal-throttle switch at label core_throttle_count, as an
equation. -/
theorem ttUpd_core (v : String) :
    ttUpd "core_throttle_count" v =
      some (fun r => { r with CoreThrottleCount := (goParseInt64 v).1 }) := rfl

/-- C1: each per-CPU fan-out parser creates its output with length
len(online) (that length is preserved on every run that returns), and writes
the record for CPU number N at output index N, the CPU's numeric identifier
value, not its loop position (exhibited by online list [1, 0] over fsSwap:
cpu0's counter 10 lands at index 0 and cpu1's counter 20 at index 1, the
reverse of the loop order); consequently an online list containing a value
at least len(online) makes the indexed write out of bounds - a runtime panic
whenever that CPU's directory lists a writable counter file - in particular
for the value 89 in the 24-element fixture list. -/
theorem claim_C1 :
    (∀ (fs : FS) (online : List Int) (out : List CPUThermalThrottle) (e : Option String),
      parseCPUThermalThrottle fs online = GoRun.ok (out, e) →
      out.length = online.length) ∧
    (∀ (fs : FS) (online : List Int) (out : List CPUFreq) (e : Option String),
      parseCPUFreq fs online = GoRun.ok (out, e) → out.length = online.length) ∧
    (∀ (fs : FS) (online : List Int) (out : List CPUTopology) (e : Option String),
      parseCPUTopology fs online = GoRun.ok (out, e) → out.length = online.length) ∧
    parseCPUThermalThrottle fsSwap [1, 0] =
      GoRun.ok ([{ CoreThrottleCount := 10 }, { CoreThrottleCount := 20 }], none) ∧
    (∀ (fs : FS) (N : Int) (rest : List Int) (s : String),
      ((N :: rest).length : Int) ≤ N →
      fs.readDir (ttPath fs N) = Except.ok [DirEntry.mk "core_throttle_count" false] →
      fs.readFile (ttPath fs N ++ "/" ++ "core_throttle_count") = Except.ok s →
      parseCPUThermalThrottle fs (N :: rest) = GoRun.panic) ∧
    parseCPUFreq fs89 online89 = GoRun.panic ∧
    parseCPUTopology fs89 online89 = GoRun.panic := by
  refine ⟨?_, ?_, ?_, by decide, ?_, by decide, by decide⟩
  · intro fs online out e h
    have := @fanCPUs_length CPUThermalThrottle ttUpd ttPath fs online
      (List.replicate online.length {}) out e h
    rwa [List.length_replicate] at this
  · intro fs online out e h
    have := @fanCPUs_length CPUFreq freqUpd freqPath fs online
      (List.replicate online.length {}) out e h
    rwa [List.length_replicate] at this
  · intro fs online out e h
    have := @fanCPUs_length CPUTopology topoUpd topoPath fs online
      (List.replicate online.length {}) out e h
    rwa [List.length_replicate] at this
  · intro fs N rest s hlen hdir hfile
    have hnot : ¬(0 ≤ N ∧ N.toNat <
        (List.replicate (N :: rest).length ({} : CPUThermalThrottle)).length) := by
      rintro ⟨h0, hb⟩
      rw [List.length_replicate, List.length_cons] at hb
      rw [List.length_cons] at hlen
      omega
    have hff : fanFiles ttUpd fs (ttPath fs N) N
        [DirEntry.mk "core_throttle_count" false]
        (List.replicate (N :: rest).length {}) = GoRun.panic := by
      unfold fanFiles
      simp only [hfile, ttUpd_core]
      exact dif_neg hnot
    unfold parseCPUThermalThrottle
    rw [fanCPUs_cons]
    simp only [hdir, hff]

/-- Witness for C1: the length conjuncts at fsAbsent with online [0, 1], and
the out-of-bounds conjunct at fsOob with online [5] (one element, CPU number
5). -/
theorem claim_C1_witness :
    (List.replicate 2 ({} : CPUThermalThrottle)).length = [(0 : Int), 1].length ∧
    (List.replicate 2 ({} : CPUFreq)).length = [(0 : Int), 1].length ∧
    (List.replicate 2 ({} : CPUTopology)).length = [(0 : Int), 1].length ∧
    parseCPUThermalThrottle fsOob [5] = GoRun.panic :=
  ⟨claim_C1.1 fsAbsent [0, 1] (List.replicate 2 {}) none (by decide),
   claim_C1.2.1 fsAbsent [0, 1] (List.replicate 2 {}) none (by decide),
   claim_C1.2.2.1 fsAbsent [0, 1] (List.replicate 2 {}) none (by decide),
   claim_C1.2.2.2.2.1 fsOob 5 [] "7" (by decide) rfl rfl⟩

/-- C6: a CPU whose thermal_throttle directory does not exist or cannot be
listed is skipped, leaving its in-bounds output slot at the default record
(both counters 0) on any run that returns; and when every online CPU lacks
the directory the read as a whole returns the all-default slice with no
error. -/
theorem claim_C6 :
    (∀ (fs : FS) (online : List Int) (N : Int) (e : String)
        (out : List CPUThermalThrottle) (err : Option String),
      parseCPUThermalThrottle fs online = GoRun.ok (out, err) →
      N ∈ online → 0 ≤ N → N.toNat < online.length →
      fs.readDir (ttPath fs N) = Except.error e →
      out[N.toNat]? = some {}) ∧
    (∀ (fs : FS) (online : List Int),
      (∀ N ∈ online, ∃ e, fs.readDir (ttPath fs N) = Except.error e) →
      parseCPUThermalThrottle fs online =
        GoRun.ok (List.replicate online.length {}, none)) := by
  constructor
  · intro fs online N e out err h hmem h0 hb hdir
    have hpres := @fanCPUs_getElem CPUThermalThrottle ttUpd ttPath fs N e h0 hdir online
      (List.replicate online.length {}) out err h
    rw [hpres]
    exact replicate_getElem ({} : CPUThermalThrottle) online.length N.toNat hb
  · intro fs online habs
    calc parseCPUThermalThrottle fs online
        = fanCPUs ttUpd ttPath fs (online ++ []) (List.replicate online.length {}) := by
          rw [List.append_nil]
          rfl
      _ = fanCPUs ttUpd ttPath fs [] (List.replicate online.length {}) :=
          @fanCPUs_skip CPUThermalThrottle ttUpd ttPath fs online []
            (List.replicate online.length {}) habs
      _ = GoRun.ok (List.replicate online.length {}, none) := rfl

/-- Witness for C6 at fsAbsent with online [0, 1]. -/
theorem claim_C6_witness :
    parseCPUThermalThrottle fsAbsent [0, 1] =
      GoRun.ok (List.replicate 2 {}, none) ∧
    (List.replicate 2 ({} : CPUThermalThrottle))[(0 : Int).toNat]? = some {} :=
  ⟨claim_C6.2 fsAbsent [0, 1] (fun N hN => ⟨"no such file or directory", rfl⟩),
   claim_C6.1 fsAbsent [0, 1] 0 "no such file or directory"
     (List.replicate 2 {}) none (by decide) (by decide) (by decide) (by decide) rfl⟩

end Procfs

namespace Procfs

/-- C7: an integer-conversion failure for an individual field is non-fatal:
whenever every listable directory's files all read successfully and every
online CPU number is in bounds, the fan-out returns a full-length record list
with no error regardless of whether any file content parses; concretely, over
fsBadField (whose cpuinfo_cur_freq holds the unparsable "abc" next to
scaling_min_freq holding "1000"), cpu0's record carries 0 for the failed
field and 1000 for the following one, and the run returns all CPUs' records
with a nil error. -/
theorem claim_C7 :
    (∀ (fs : FS) (online : List Int),
      (∀ N ∈ online, 0 ≤ N ∧ N.toNat < online.length) →
      (∀ N ∈ online, ∀ files, fs.readDir (freqPath fs N) = Except.ok files →
        ∀ f ∈ files, ∃ s, fs.readFile (freqPath fs N ++ "/" ++ f.name) = Except.ok s) →
      ∃ out, parseCPUFreq fs online = GoRun.ok (out, none) ∧
        out.length = online.length) ∧
    parseCPUFreq fsBadField [0] =
      GoRun.ok ([{ CPUInfoCurFreq := 0, ScalingMinFreq := 1000 }], none) ∧
    (goParseInt64 (goTrim "abc")).2.isSome = true := by
  refine ⟨?_, by decide, by decide⟩
  intro fs online hb hr
  obtain ⟨out, h1, h2⟩ := @fanCPUs_total CPUFreq freqUpd freqPath fs online
    (List.replicate online.length {})
    (fun N hN => by
      obtain ⟨a, b⟩ := hb N hN
      exact ⟨a, by rwa [List.length_replicate]⟩) hr
  exact ⟨out, h1, by rwa [List.length_replicate] at h2⟩

/-- Witness for C7 at fsBadField with online [0]. -/
theorem claim_C7_witness :
    ∃ out, parseCPUFreq fsBadField [(0 : Int)] = GoRun.ok (out, none) ∧
      out.length = [(0 : Int)].length := by
  refine claim_C7.1 fsBadField [0] (by decide) ?_
  intro N hN files hdir f hf
  have hN0 : N = 0 := by simpa using hN
  subst hN0
  have hcomp : fsBadField.readDir (freqPath fsBadField 0) =
      Except.ok [DirEntry.mk "cpuinfo_cur_freq" false,
        DirEntry.mk "scaling_min_freq" false] := rfl
  have h12 := hcomp.symm.trans hdir
  injection h12 with hinj
  subst hinj
  fin_cases hf
  · exact ⟨"abc", rfl⟩
  · exact ⟨"1000", rfl⟩

/-- C8: when a subsystem directory lists successfully but reading one of its
files fails, the whole fan-out aborts immediately - any earlier directoryless
CPUs having been skipped, the slice still in its initial all-default state
when the failing file comes first - and returns an error whose text wraps the
offending file's full path, for both the thermal-throttle and the cpufreq
parser. -/
theorem claim_C8 :
    (∀ (fs : FS) (pre : List Int) (N : Int) (rest : List Int)
        (f : DirEntry) (more : List DirEntry) (e : String),
      (∀ M ∈ pre, ∃ e2, fs.readDir (ttPath fs M) = Except.error e2) →
      fs.readDir (ttPath fs N) = Except.ok (f :: more) →
      fs.readFile (ttPath fs N ++ "/" ++ f.name) = Except.error e →
      parseCPUThermalThrottle fs (pre ++ N :: rest) =
        GoRun.ok (List.replicate (pre ++ N :: rest).length {},
          some ("cannot access " ++ ttPath fs N ++ "/" ++ f.name ++ ", " ++ e))) ∧
    (∀ (fs : FS) (pre : List Int) (N : Int) (rest : List Int)
        (f : DirEntry) (more : List DirEntry) (e : String),
      (∀ M ∈ pre, ∃ e2, fs.readDir (freqPath fs M) = Except.error e2) →
      fs.readDir (freqPath fs N) = Except.ok (f :: more) →
      fs.readFile (freqPath fs N ++ "/" ++ f.name) = Except.error e →
      parseCPUFreq fs (pre ++ N :: rest) =
        GoRun.ok (List.replicate (pre ++ N :: rest).length {},
          some ("cannot access " ++ freqPath fs N ++ "/" ++ f.name ++ ", " ++ e))) := by
  constructor
  · intro fs pre N rest f more e hpre hdir hfile
    have hff : fanFiles ttUpd fs (ttPath fs N) N (f :: more)
        (List.replicate (pre ++ N :: rest).length {}) =
        GoRun.ok (List.replicate (pre ++ N :: rest).length {},
          some ("cannot access " ++ ttPath fs N ++ "/" ++ f.name ++ ", " ++ e)) := by
      unfold fanFiles
      simp only [hfile]
    show fanCPUs ttUpd ttPath fs (pre ++ N :: rest)
      (List.replicate (pre ++ N :: rest).length {}) = _
    rw [fanCPUs_skip fs pre (N :: rest) _ hpre, fanCPUs_cons]
    simp only [hdir, hff]
  · intro fs pre N rest f more e hpre hdir hfile
    have hff : fanFiles freqUpd fs (freqPath fs N) N (f :: more)
        (List.replicate (pre ++ N :: rest).length {}) =
        GoRun.ok (List.replicate (pre ++ N :: rest).length {},
          some ("cannot access " ++ freqPath fs N ++ "/" ++ f.name ++ ", " ++ e)) := by
      unfold fanFiles
      simp only [hfile]
    show fanCPUs freqUpd freqPath fs (pre ++ N :: rest)
      (List.replicate (pre ++ N :: rest).length {}) = _
    rw [fanCPUs_skip fs pre (N :: rest) _ hpre, fanCPUs_cons]
    simp only [hdir, hff]

/-- Witness for C8 at fsUnreadable with online [0] for both parsers. -/
theorem claim_C8_witness :
    parseCPUThermalThrottle fsUnreadable ([] ++ 0 :: []) =
      GoRun.ok (List.replicate (([] ++ 0 :: [] : List Int)).length {},
        some ("cannot access " ++ ttPath fsUnreadable 0 ++ "/" ++
          (DirEntry.mk "core_throttle_count" false).name ++ ", " ++
          "permission denied")) ∧
    parseCPUFreq fsUnreadable ([] ++ 0 :: []) =
      GoRun.ok (List.replicate (([] ++ 0 :: [] : List Int)).length {},
        some ("cannot access " ++ freqPath fsUnreadable 0 ++ "/" ++
          (DirEntry.mk "scaling_cur_freq" false).name ++ ", " ++
          "permission denied")) :=
  ⟨claim_C8.1 fsUnreadable [] 0 [] (DirEntry.mk "core_throttle_count" false) []
     "permission denied" (fun M hM => absurd hM (List.not_mem_nil M)) rfl rfl,
   claim_C8.2 fsUnreadable [] 0 [] (DirEntry.mk "scaling_cur_freq" false) []
     "permission denied" (fun M hM => absurd hM (List.not_mem_nil M)) rfl rfl⟩

/-- C9: the composite read NewCPUInfo is a deterministic function of the
observable filesystem contents alone: two FS values resolving the same mount
point and answering every directory listing and file read identically produce
structurally equal CPUInfo snapshots and equal errors, so re-reading an
unchanged root twice yields equal results with no hidden state between
calls. -/
theorem claim_C9 (fs1 fs2 : FS) (h1 : fs1.mountPoint = fs2.mountPoint)
    (h2 : fs1.readDir = fs2.readDir) (h3 : fs1.readFile = fs2.readFile) :
    FS.NewCPUInfo fs1 = FS.NewCPUInfo fs2 := by
  cases fs1 with
  | mk m1 d1 f1 =>
    cases fs2 with
    | mk m2 d2 f2 =>
      obtain rfl : m1 = m2 := h1
      obtain rfl : d1 = d2 := h2
      obtain rfl : f1 = f2 := h3
      rfl

/-- Witness for C9: two separately constructed but observably identical
roots give the same snapshot. -/
theorem claim_C9_witness : FS.NewCPUInfo fsAbsent = FS.NewCPUInfo fsAbsentTwin :=
  claim_C9 fsAbsent fsAbsentTwin rfl rfl rfl

/-- C4 counterexample: over fsKernelMaxBad, whose directory listing and file
reads all succeed but whose kernel_max content "zz" fails integer conversion,
parseCPUInfoGeneric returns a nil error - the conversion failure is assigned
to a loop-shadowed err variable and only logged, never returned - refuting
the claim that the failure is returned as the construction error. -/
theorem claim_C4_counterexample :
    (goParseInt64 (goTrim "zz")).2.isSome = true ∧
    parseCPUInfoGeneric fsKernelMaxBad = GoRun.ok ({ KernelMax := 0 }, none) :=
  ⟨by decide, by decide⟩

/-- C4 amended: when the directory listing and file reads all succeed but the
kernel_max content fails integer conversion, parseCPUInfoGeneric does NOT
return the conversion failure: the failure is only logged (its err is
assigned to a variable shadowed inside the loop), KernelMax is left at the
conversion's zero value, and the function returns a nil error. -/
theorem claim_C4_amended :
    ∀ (fs : FS) (s e : String),
      fs.readDir (fs.Path "devices/system/cpu") =
        Except.ok [DirEntry.mk "kernel_max" false] →
      fs.readFile (fs.Path "devices/system/cpu" ++ "/" ++ "kernel_max") =
        Except.ok s →
      goParseInt64 (goTrim s) = (0, some e) →
      parseCPUInfoGeneric fs = GoRun.ok ({ KernelMax := 0 }, none) := by
  intro fs s e hdir hfile hparse
  unfold parseCPUInfoGeneric
  simp only [hdir]
  unfold cpuRootFiles
  simp only [hfile, hparse]
  rfl

/-- Witness for C4's amended claim at fsKernelMaxBad. -/
theorem claim_C4_witness :
    parseCPUInfoGeneric fsKernelMaxBad = GoRun.ok ({ KernelMax := 0 }, none) :=
  claim_C4_amended fsKernelMaxBad "zz"
    "strconv.ParseInt: parsing zz: invalid syntax" rfl rfl (by decide)

end Procfs
